import Mathlib

/-!
Verification of the command-latency telemetry engine of `pkg/proxy/stats.go`
(xcache proxy statistics). The Go code is shallowly embedded: Go `int64`
values become `Int` (all intermediate values in the verified properties stay
far inside the `int64` range, so wraparound never occurs on the inputs
considered), Go arrays become functions out of `Nat` or `Fin`, the mutable
per-op state becomes explicit state passing, and the two background loops
become pure step functions over the registry state.
-/

namespace XCacheStats

/-- Go integer division on `int64` truncates toward zero; `Int.tdiv` has
exactly that semantics. -/
def godiv (a b : Int) : Int := a.tdiv b

/-! ### Shared constants (stats.go lines 19-33) -/

def TPFirstGrade : Int := 5
def TPFirstGradeSize : Int := 40
def TPSecondGrade : Int := 25
def TPSecondGradeSize : Int := 20
def TPThirdGrade : Int := 250
def TPThirdGradeSize : Int := 10
def TPMaxNum : Int := TPFirstGradeSize + TPSecondGradeSize + TPThirdGradeSize
def ClearSlowFlagPeriodRate : Int := 3
def IntervalNum : Nat := 5
def DelayKindNum : Nat := 8

/-- Window periods in seconds (stats.go line 30). -/
def IntervalMark : Fin 5 → Int := ![1, 10, 60, 600, 3600]

/-- Delay thresholds in milliseconds (stats.go line 33). -/
def DelayNumMark : List Int := [50, 100, 200, 300, 500, 1000, 2000, 3000]

/-- The bucket upper-edge table, precomputed by `init` (stats.go lines
126-135): `tpdelay[i] = (i+1)*5` for `i < 40`, `200 + (i-40+1)*25` for
`40 ≤ i < 60`, and `200 + 500 + (i-60+1)*250` for `60 ≤ i < 70`. -/
def tpdelay (i : Nat) : Int :=
  if (i : Int) < TPFirstGradeSize then
    ((i : Int) + 1) * TPFirstGrade
  else if (i : Int) < TPFirstGradeSize + TPSecondGradeSize then
    TPFirstGradeSize * TPFirstGrade + ((i : Int) - TPFirstGradeSize + 1) * TPSecondGrade
  else
    TPFirstGradeSize * TPFirstGrade + TPSecondGradeSize * TPSecondGrade
      + ((i : Int) - TPFirstGradeSize - TPSecondGradeSize + 1) * TPThirdGrade

/-! ### The latency bucketer (stats.go lines 339-357)

`incrTP` first maps the nanosecond duration to a bucket index; the index
computation is the pure core extracted here. -/

/-- Bucket index chosen by `incrTP` for a nanosecond duration
(stats.go lines 340-357). -/
def incrTPIndex (duration : Int) : Int :=
  let duration_ms := godiv duration 1000000
  if duration_ms ≤ 0 then 0
  else if duration_ms ≤ TPFirstGrade * TPFirstGradeSize then
    godiv (duration_ms + TPFirstGrade - 1) TPFirstGrade - 1
  else if duration_ms ≤ TPFirstGrade * TPFirstGradeSize + TPSecondGrade * TPSecondGradeSize then
    godiv (duration_ms - TPFirstGrade * TPFirstGradeSize + TPSecondGrade - 1) TPSecondGrade
      + TPFirstGradeSize - 1
  else if duration_ms ≤ TPFirstGrade * TPFirstGradeSize + TPSecondGrade * TPSecondGradeSize
      + TPThirdGrade * TPThirdGradeSize then
    godiv (duration_ms - TPFirstGrade * TPFirstGradeSize - TPSecondGrade * TPSecondGradeSize
        + TPThirdGrade - 1) TPThirdGrade
      + TPFirstGradeSize + TPSecondGradeSize - 1
  else TPMaxNum - 1

/-- Ceiling division of integers, for a positive divisor. -/
def ceilDivSpec (a b : Int) : Int := -((-a) / b)

/-- Modelled from the spec (section 4.B): the bucketer as the spec words it,
with `m = floor(d_ns / 1e6)` and ceiling divisions per grade. Used only to
compare against `incrTPIndex`, which is the embedding of the source. -/
def bucketIndexSpec (d : Int) : Int :=
  let m := d / 1000000
  if m ≤ 0 then 0
  else if m ≤ 200 then ceilDivSpec m 5 - 1
  else if m ≤ 700 then ceilDivSpec (m - 200) 25 + 39
  else if m ≤ 3200 then ceilDivSpec (m - 700) 250 + 59
  else 69

theorem tdiv_eq_ediv_of_nonneg {a b : Int} (ha : 0 ≤ a) (hb : 0 ≤ b) :
    a.tdiv b = a / b := Int.tdiv_eq_ediv ha hb

/-- The source bucketer agrees with the formula of the spec everywhere. -/
theorem incrTPIndex_eq_bucketIndexSpec (d : Int) : incrTPIndex d = bucketIndexSpec d := by
  rcases le_or_lt 0 d with hd | hd
  · have h1 : Int.tdiv d 1000000 = d / 1000000 :=
      tdiv_eq_ediv_of_nonneg hd (by norm_num)
    have hm0 : 0 ≤ d / 1000000 := Int.ediv_nonneg hd (by norm_num)
    simp only [incrTPIndex, bucketIndexSpec, godiv, ceilDivSpec, TPFirstGrade, TPFirstGradeSize,
      TPSecondGrade, TPSecondGradeSize, TPThirdGrade, TPThirdGradeSize, TPMaxNum, h1]
    set m := d / 1000000 with hm
    norm_num
    split_ifs with h2 h3 h4 h5
    · rfl
    · rw [show Int.tdiv (m + 5 - 1) 5 = (m + 5 - 1) / 5 from
        tdiv_eq_ediv_of_nonneg (by omega) (by omega)]
      omega
    · rw [show Int.tdiv (m - 200 + 25 - 1) 25 = (m - 200 + 25 - 1) / 25 from
        tdiv_eq_ediv_of_nonneg (by omega) (by omega)]
      omega
    · rw [show Int.tdiv (m - 200 - 500 + 250 - 1) 250 = (m - 200 - 500 + 250 - 1) / 250 from
        tdiv_eq_ediv_of_nonneg (by omega) (by omega)]
      omega
    · rfl
  · have h1 : Int.tdiv d 1000000 ≤ 0 := by
      have h2 : d = -(-d) := by omega
      rw [h2, Int.neg_tdiv]
      have : 0 ≤ Int.tdiv (-d) 1000000 :=
        Int.tdiv_nonneg (by omega) (by norm_num)
      omega
    have h3 : d / 1000000 ≤ 0 := by omega
    simp only [incrTPIndex, bucketIndexSpec, godiv]
    rw [if_pos h1, if_pos h3]

/-- The spec formula always yields an index in `[0, 70)`. -/
theorem bucketIndexSpec_bounds (d : Int) : 0 ≤ bucketIndexSpec d ∧ bucketIndexSpec d < 70 := by
  simp only [bucketIndexSpec, ceilDivSpec]
  set m := d / 1000000 with hm
  split_ifs <;> omega

/-- The source bucketer always yields an index in `[0, 70)`. -/
theorem incrTPIndex_bounds (d : Int) : 0 ≤ incrTPIndex d ∧ incrTPIndex d < 70 := by
  rw [incrTPIndex_eq_bucketIndexSpec]
  exact bucketIndexSpec_bounds d

/-- C3: for every nanosecond duration, `incrTP` buckets exactly as the spec
formula says (floor to ms; ceiling divisions per grade; overflow to 69), and
on the sample inputs 1, 5, 6, 200, 201, 700, 701, 3200, 5000 ms it yields
indices 0, 0, 1, 39, 40, 59, 60, 69, 69, whose `tpdelay` upper edges are
5, 5, 10, 200, 225, 700, 950, 3200, 3200 ms. -/
theorem bucketer_matches_spec_formula_and_samples :
    (∀ d : Int, incrTPIndex d = bucketIndexSpec d)
    ∧ (incrTPIndex (1 * 1000000) = 0 ∧ incrTPIndex (5 * 1000000) = 0
      ∧ incrTPIndex (6 * 1000000) = 1 ∧ incrTPIndex (200 * 1000000) = 39
      ∧ incrTPIndex (201 * 1000000) = 40 ∧ incrTPIndex (700 * 1000000) = 59
      ∧ incrTPIndex (701 * 1000000) = 60 ∧ incrTPIndex (3200 * 1000000) = 69
      ∧ incrTPIndex (5000 * 1000000) = 69)
    ∧ (tpdelay 0 = 5 ∧ tpdelay 1 = 10 ∧ tpdelay 39 = 200 ∧ tpdelay 40 = 225
      ∧ tpdelay 59 = 700 ∧ tpdelay 60 = 950 ∧ tpdelay 69 = 3200) := by
  refine ⟨incrTPIndex_eq_bucketIndexSpec, ⟨?_, ?_, ?_, ?_, ?_, ?_, ?_, ?_, ?_⟩, ?_⟩ <;> decide

/-! ### The data model (stats.go lines 35-120)

Atomic cells become plain `Int` fields: every update in the embedded code is
a single read-modify-write, and the verified properties are about the
sequential (single-updater) behaviour of the operations. -/

/-- Per-window accumulator and published fields (struct `delayInfo`,
stats.go lines 35-59). The `tp` histogram has 70 meaningful buckets
(indices 0..69) and `delayCount` has 8 (indices 0..7). -/
structure delayInfo where
  interval : Int
  calls : Int
  nsecs : Int
  nsecsmax : Int
  avg : Int
  qps : Int
  tp : Nat → Int
  tp90 : Int
  tp99 : Int
  tp999 : Int
  tp9999 : Int
  tp100 : Int
  delayCount : Nat → Int
  delay50ms : Int
  delay100ms : Int
  delay200ms : Int
  delay300ms : Int
  delay500ms : Int
  delay1s : Int
  delay2s : Int
  delay3s : Int

/-- Per-op stats (struct `opStats`, stats.go lines 61-74). The five windows
of `delayInfo[IntervalNum]` become a function out of `Fin 5`; the nested
`redis.errors` counter is flattened to `redisErrors`. -/
structure opStats where
  opstr : String
  totalCalls : Int
  totalNsecs : Int
  totalFails : Int
  lastSetSlowTime : Int
  lastClearSlowTime : Int
  delayInfo : Fin 5 → delayInfo
  redisErrors : Int

/-- A fresh window, as built by `getOpStats` (stats.go line 628):
`&delayInfo{interval: IntervalMark[i]}`, every other field zero. -/
def newDelayInfo (iv : Int) : delayInfo where
  interval := iv
  calls := 0
  nsecs := 0
  nsecsmax := 0
  avg := 0
  qps := 0
  tp := fun _ => 0
  tp90 := 0
  tp99 := 0
  tp999 := 0
  tp9999 := 0
  tp100 := 0
  delayCount := fun _ => 0
  delay50ms := 0
  delay100ms := 0
  delay200ms := 0
  delay300ms := 0
  delay500ms := 0
  delay1s := 0
  delay2s := 0
  delay3s := 0

/-- A fresh per-op record, as built by `getOpStats` (stats.go lines
626-629): `&opStats{opstr: opstr}` with the five windows allocated. -/
def newOpStats (opstr : String) : opStats where
  opstr := opstr
  totalCalls := 0
  totalNsecs := 0
  totalFails := 0
  lastSetSlowTime := 0
  lastClearSlowTime := 0
  delayInfo := fun i => newDelayInfo (IntervalMark i)
  redisErrors := 0

/-! ### The hot-path update (stats.go lines 339-386, 500-510, 557-569) -/

/-- The `nsecsmax` update of `incrTP` (stats.go lines 366-383). In the
sequential embedding the CAS loop reduces to: update the max exactly when
the new duration beats it by at least 5 ms. -/
def updateNsecsMax (di : delayInfo) (duration : Int) : delayInfo :=
  if duration ≥ di.nsecsmax + 5 * 1000000 then { di with nsecsmax := duration } else di

/-- The per-window body of the loop in `incrTP` (stats.go lines 363-385):
`calls++`, `nsecs += duration`, max update, `tp[index]++`. -/
def incrTPWindow (duration : Int) (idx : Nat) (di : delayInfo) : delayInfo :=
  let di1 := { di with calls := di.calls + 1, nsecs := di.nsecs + duration }
  let di2 := updateNsecsMax di1 duration
  { di2 with tp := Function.update di2.tp idx (di2.tp idx + 1) }

/-- `incrTP` (stats.go lines 339-386): compute the bucket index, bail out if
negative, and apply the window body to each of the five windows. -/
def opStats.incrTP (s : opStats) (duration : Int) : opStats :=
  let index := incrTPIndex duration
  if index < 0 then s
  else { s with delayInfo := fun i => incrTPWindow duration index.toNat (s.delayInfo i) }

/-- The loop body of `incrDelayNum` (stats.go lines 501-509): for mark
number `k`, bump `delayCount[k]` in all five windows. -/
def bumpDelayCount (k : Nat) (s : opStats) : opStats :=
  { s with delayInfo := fun j =>
      let di := s.delayInfo j
      { di with delayCount := Function.update di.delayCount k (di.delayCount k + 1) } }

/-- The `for i, v := range DelayNumMark` loop of `incrDelayNum` with its
early `break`: walk the marks in order, bumping `delayCount[k]` while the
duration is at least the mark, and stop at the first mark above it. -/
def incrDelayLoop (duration : Int) : List Int → Nat → opStats → opStats
  | [], _, s => s
  | v :: rest, k, s =>
    if duration ≥ v then incrDelayLoop duration rest (k + 1) (bumpDelayCount k s)
    else s

/-- `incrDelayNum` (stats.go lines 500-510); `duration` is in ms. -/
def opStats.incrDelayNum (s : opStats) (duration : Int) : opStats :=
  incrDelayLoop duration DelayNumMark 0 s

/-- Response types of the redis package (only `TypeError` matters to the
stats code; the remaining types behave like `TypeReply`). -/
inductive RespType where
  | TypeReply
  | TypeError
deriving DecidableEq

/-- `incrOpStats` on one op (stats.go lines 557-569): lifetime totals, the
error counter, the histogram update, and the delay classifier (which is
handed the duration converted from ns to ms). -/
def opStats.incrOpStats (s : opStats) (responseTime : Int) (t : RespType) : opStats :=
  let s1 := { s with
    totalCalls := s.totalCalls + 1
    totalNsecs := s.totalNsecs + responseTime
    redisErrors := match t with
      | RespType.TypeError => s.redisErrors + 1
      | _ => s.redisErrors }
  let s2 := s1.incrTP responseTime
  s2.incrDelayNum (godiv responseTime 1000000)

/-- A sequence of recorded events applied in order. -/
def applyEvents (evs : List (Int × RespType)) (s : opStats) : opStats :=
  evs.foldl (fun a e => a.incrOpStats e.1 e.2) s

/-- A sequence of millisecond durations fed to the threshold classifier. -/
def applyDelays (ds : List Int) (s : opStats) : opStats :=
  ds.foldl (fun a d => a.incrDelayNum d) s

/-- Sum of the 70 meaningful histogram buckets. -/
def histSum (tp : Nat → Int) : Int := ∑ i ∈ Finset.range 70, tp i

/-! ### Effect of one event on a window -/

theorem incrDelayLoop_calls_tp (d : Int) (marks : List Int) :
    ∀ (k : Nat) (s : opStats) (j : Fin 5),
      ((incrDelayLoop d marks k s).delayInfo j).calls = (s.delayInfo j).calls
      ∧ ((incrDelayLoop d marks k s).delayInfo j).tp = (s.delayInfo j).tp
      ∧ ((incrDelayLoop d marks k s).delayInfo j).nsecs = (s.delayInfo j).nsecs
      ∧ ((incrDelayLoop d marks k s).delayInfo j).nsecsmax = (s.delayInfo j).nsecsmax := by
  induction marks with
  | nil => intro k s j; simp [incrDelayLoop]
  | cons v rest ih =>
    intro k s j
    simp only [incrDelayLoop]
    split
    · exact (ih (k + 1) (bumpDelayCount k s) j).imp (by simp [bumpDelayCount])
        (fun h => h.imp (by simp [bumpDelayCount])
          (fun h2 => h2.imp (by simp [bumpDelayCount]) (by simp [bumpDelayCount])))
    · exact ⟨rfl, rfl, rfl, rfl⟩

theorem incrTP_window (s : opStats) (d : Int) (j : Fin 5) :
    ((s.incrTP d).delayInfo j).calls = (s.delayInfo j).calls + 1
    ∧ ((s.incrTP d).delayInfo j).tp
        = Function.update (s.delayInfo j).tp (incrTPIndex d).toNat
            ((s.delayInfo j).tp (incrTPIndex d).toNat + 1) := by
  have hb := incrTPIndex_bounds d
  unfold opStats.incrTP
  rw [if_neg (by omega)]
  simp only [incrTPWindow, updateNsecsMax]
  split <;> simp

theorem incrDelayNum_incrTP_window (s1 : opStats) (d dm : Int) (j : Fin 5) :
    (((s1.incrTP d).incrDelayNum dm).delayInfo j).calls = (s1.delayInfo j).calls + 1
    ∧ (((s1.incrTP d).incrDelayNum dm).delayInfo j).tp
        = Function.update (s1.delayInfo j).tp (incrTPIndex d).toNat
            ((s1.delayInfo j).tp (incrTPIndex d).toNat + 1) := by
  unfold opStats.incrDelayNum
  obtain ⟨hc, htp, -, -⟩ := incrDelayLoop_calls_tp dm DelayNumMark 0 (s1.incrTP d) j
  rw [hc, htp]
  exact incrTP_window s1 d j

theorem incrOpStats_window (s : opStats) (d : Int) (t : RespType) (j : Fin 5) :
    ((s.incrOpStats d t).delayInfo j).calls = (s.delayInfo j).calls + 1
    ∧ ((s.incrOpStats d t).delayInfo j).tp
        = Function.update (s.delayInfo j).tp (incrTPIndex d).toNat
            ((s.delayInfo j).tp (incrTPIndex d).toNat + 1) := by
  exact incrDelayNum_incrTP_window _ d (godiv d 1000000) j

theorem histSum_update (tp : Nat → Int) (idx : Nat) (h : idx < 70) :
    histSum (Function.update tp idx (tp idx + 1)) = histSum tp + 1 := by
  unfold histSum
  rw [Finset.sum_update_of_mem (Finset.mem_range.mpr h),
    Finset.sum_eq_sum_diff_singleton_add (Finset.mem_range.mpr h) tp]
  ring

theorem applyEvents_calls_histSum (evs : List (Int × RespType)) :
    ∀ (s : opStats) (j : Fin 5),
      ((applyEvents evs s).delayInfo j).calls = (s.delayInfo j).calls + evs.length
      ∧ histSum ((applyEvents evs s).delayInfo j).tp
          = histSum (s.delayInfo j).tp + evs.length := by
  induction evs with
  | nil => intro s j; simp [applyEvents]
  | cons e rest ih =>
    intro s j
    have hstep := incrOpStats_window s e.1 e.2 j
    have hidx := incrTPIndex_bounds e.1
    have hrec := ih (s.incrOpStats e.1 e.2) j
    have happ : applyEvents (e :: rest) s = applyEvents rest (s.incrOpStats e.1 e.2) := rfl
    rw [happ]
    constructor
    · rw [hrec.1, hstep.1]; simp [List.length_cons]; ring
    · rw [hrec.2, hstep.2, histSum_update _ _ (by omega)]
      simp [List.length_cons]; ring

/-- C4: each recorded event increments `calls` by exactly 1 and exactly one
histogram bucket by exactly 1 in each of the five windows; over any sequence
of events on a fresh op (no intervening reset) every window has
`calls = N` and a histogram summing to `N`. -/
theorem event_increments_each_window_once :
    (∀ (s : opStats) (d : Int) (t : RespType) (j : Fin 5),
      ((s.incrOpStats d t).delayInfo j).calls = (s.delayInfo j).calls + 1
      ∧ ∃ idx : Nat, idx < 70
          ∧ ((s.incrOpStats d t).delayInfo j).tp
              = Function.update (s.delayInfo j).tp idx ((s.delayInfo j).tp idx + 1)
          ∧ histSum ((s.incrOpStats d t).delayInfo j).tp = histSum (s.delayInfo j).tp + 1)
    ∧ ∀ (evs : List (Int × RespType)) (op : String) (j : Fin 5),
      ((applyEvents evs (newOpStats op)).delayInfo j).calls = evs.length
      ∧ histSum ((applyEvents evs (newOpStats op)).delayInfo j).tp = evs.length := by
  constructor
  · intro s d t j
    obtain ⟨hc, htp⟩ := incrOpStats_window s d t j
    have hb := incrTPIndex_bounds d
    exact ⟨hc, (incrTPIndex d).toNat, by omega, htp,
      by rw [htp, histSum_update _ _ (by omega)]⟩
  · intro evs op j
    obtain ⟨hc, hs⟩ := applyEvents_calls_histSum evs (newOpStats op) j
    constructor
    · rw [hc]; simp [newOpStats, newDelayInfo]
    · rw [hs]; simp [histSum, newOpStats, newDelayInfo]

/-! ### The threshold classifier -/

theorem bumpDelayCount_delayCount (m : Nat) (s : opStats) (j : Fin 5) (k : Nat) :
    ((bumpDelayCount m s).delayInfo j).delayCount k
      = (s.delayInfo j).delayCount k + (if k = m then 1 else 0) := by
  simp only [bumpDelayCount, Function.update_apply]
  split_ifs with h
  · subst h; omega
  · omega

theorem incrDelayNum_delayCount (s : opStats) (d : Int) (j : Fin 5) (k : Nat) (hk : k < 8) :
    ((s.incrDelayNum d).delayInfo j).delayCount k
      = (s.delayInfo j).delayCount k + (if DelayNumMark.getD k 0 ≤ d then 1 else 0) := by
  simp only [opStats.incrDelayNum, DelayNumMark, incrDelayLoop, ge_iff_le]
  split_ifs with h1 h2 h3 h4 h5 h6 h7 h8 <;>
    (try simp only [bumpDelayCount_delayCount]) <;>
    (interval_cases k <;> (try simp_all) <;> omega)

theorem applyDelays_delayCount (ds : List Int) :
    ∀ (s : opStats) (j : Fin 5) (k : Nat), k < 8 →
      ((applyDelays ds s).delayInfo j).delayCount k
        = (s.delayInfo j).delayCount k
          + ((ds.filter (fun d => DelayNumMark.getD k 0 ≤ d)).length : Int) := by
  induction ds with
  | nil => intro s j k _; simp [applyDelays]
  | cons d rest ih =>
    intro s j k hk
    have happ : applyDelays (d :: rest) s = applyDelays rest (s.incrDelayNum d) := rfl
    rw [happ, ih (s.incrDelayNum d) j k hk, incrDelayNum_delayCount s d j k hk]
    by_cases h : DelayNumMark.getD k 0 ≤ d
    · rw [if_pos h, List.filter_cons_of_pos (by simpa using h)]
      simp only [List.length_cons]
      push_cast
      ring
    · rw [if_neg h, List.filter_cons_of_neg (by simpa using h)]
      ring

/-- C5: the threshold classifier bumps `delayCount[k]` (in every window)
exactly for the marks at most the duration, so after any event sequence on a
fresh op `delayCount[k]` counts the events whose millisecond duration is at
least `DelayNumMark[k]`. -/
theorem delay_classifier_counts_threshold_crossings :
    (∀ (s : opStats) (d : Int) (j : Fin 5) (k : Nat), k < 8 →
      ((s.incrDelayNum d).delayInfo j).delayCount k
        = (s.delayInfo j).delayCount k + (if DelayNumMark.getD k 0 ≤ d then 1 else 0))
    ∧ ∀ (ds : List Int) (op : String) (j : Fin 5) (k : Nat), k < 8 →
      ((applyDelays ds (newOpStats op)).delayInfo j).delayCount k
        = ((ds.filter (fun d => DelayNumMark.getD k 0 ≤ d)).length : Int) := by
  refine ⟨incrDelayNum_delayCount, fun ds op j k hk => ?_⟩
  rw [applyDelays_delayCount ds (newOpStats op) j k hk]
  simp [newOpStats, newDelayInfo]

theorem delay_classifier_counts_threshold_crossings_witness :
    (((newOpStats "GET").incrDelayNum 120).delayInfo 0).delayCount 1
      = ((newOpStats "GET").delayInfo 0).delayCount 1
        + (if DelayNumMark.getD 1 0 ≤ 120 then 1 else 0)
    ∧ ((applyDelays [10, 60, 120] (newOpStats "SET")).delayInfo 0).delayCount 0
      = ((([10, 60, 120] : List Int).filter
          (fun d => DelayNumMark.getD 0 0 ≤ d)).length : Int) :=
  ⟨delay_classifier_counts_threshold_crossings.1 (newOpStats "GET") 120 0 1 (by decide),
   delay_classifier_counts_threshold_crossings.2 [10, 60, 120] "SET" 0 0 (by decide)⟩

/-! ### Window refresh (stats.go lines 217-336, 484-497) -/

/-- One pass of the prefix-sum walk inside `refresh4TpInfo` (the loops at
stats.go lines 251-257, 262-268, 274-280, 286-292): visit the remaining
bucket indices in order, accumulating the running count, and stop at the
first bucket where the count reaches the target, or at the last bucket
(`i == len(s.tp)-1` in Go, encoded here by an empty tail, since the index
lists passed below always run up to bucket 69). Returns the stopping index
and the accumulated count. -/
def walkBuckets (tp : Nat → Int) (target : Int) : List Nat → Int → Nat → Nat × Int
  | [], count, cur => (cur, count)
  | j :: rest, count, _ =>
    let c := count + tp j
    if target ≤ c ∨ rest = [] then (j, c)
    else walkBuckets tp target rest c j

/-- Resuming the walk for the next higher target (the conditionals at
stats.go lines 259-261, 271-273, 283-285): keep the current index if the
count already reaches the target or the walk stands at the last bucket,
else continue from the next index. -/
def walkResume (tp : Nat → Int) (target count : Int) (i : Nat) : Nat × Int :=
  if target ≤ count ∨ i = 69 then (i, count)
  else walkBuckets tp target (List.range' (i + 1) (69 - i)) count i

/-- The percentile-extraction part of `refresh4TpInfo` (stats.go lines
228-314) with the four rank targets `tpnum1..tpnum4` as parameters. The Go
locals `index1..index4` are always assigned (the first walk always stops,
each resumed walk resumes from the previous index), and the published
values are the `tpdelay` edges when the indices are monotone and below
`TPMaxNum`, `-1` otherwise. The Go guard `index1 >= 0` holds by
construction (the indices are natural numbers here, Go ints there). -/
def refresh4TpInfoCore (calls : Int) (tp : Nat → Int) (t1 t2 t3 t4 : Int) :
    Int × Int × Int × Int :=
  if calls = 0 then (0, 0, 0, 0)
  else
    let w1 := walkBuckets tp t1 (List.range 70) 0 0
    let w2 := walkResume tp t2 w1.2 w1.1
    let w3 := walkResume tp t3 w2.2 w2.1
    let w4 := walkResume tp t4 w3.2 w3.1
    if w1.1 ≤ w2.1 ∧ w2.1 ≤ w3.1 ∧ w3.1 ≤ w4.1 ∧ w4.1 < 70 then
      (tpdelay w1.1, tpdelay w2.1, tpdelay w3.1, tpdelay w4.1)
    else (-1, -1, -1, -1)

/-- Modelled from the source expression `int64(float64(calls) * persents)`
(stats.go lines 242-245) where `persents` is 0.9, 0.99, 0.999 or 0.9999:
embedded as the exact truncation `(calls * pnum) tdiv pden`. The IEEE
float64 product of the source may differ from the exact rational by one
unit near integer boundaries, so every theorem about the percentile walk
below is proved for arbitrary target values and only instantiated at this
model; on the concrete small inputs used in the closed theorems below the
float computation and this model agree. -/
def tpnum (calls pnum pden : Int) : Int := godiv (calls * pnum) pden

/-- `refresh4TpInfo` (stats.go lines 228-314): publish the four rank
percentiles. -/
def delayInfo.refresh4TpInfo (s : delayInfo) : delayInfo :=
  let q := refresh4TpInfoCore s.calls s.tp (tpnum s.calls 9 10) (tpnum s.calls 99 100)
    (tpnum s.calls 999 1000) (tpnum s.calls 9999 10000)
  { s with tp90 := q.1, tp99 := q.2.1, tp999 := q.2.2.1, tp9999 := q.2.2.2 }

/-- `refreshTpInfo` (stats.go lines 217-226): refresh the rank percentiles,
publish `tp100 = nsecsmax / 1e6`, then `avg = nsecs / 1e6 / calls`
(0 when `calls` is 0). -/
def delayInfo.refreshTpInfo (s : delayInfo) : delayInfo :=
  let s1 := s.refresh4TpInfo
  let s2 := { s1 with tp100 := godiv s1.nsecsmax 1000000 }
  if s2.calls ≠ 0 then { s2 with avg := godiv (godiv s2.nsecs 1000000) s2.calls }
  else { s2 with avg := 0 }

/-- `resetTpInfo` (stats.go lines 316-321). -/
def delayInfo.resetTpInfo (s : delayInfo) : delayInfo :=
  { s with calls := 0, nsecs := 0, nsecsmax := 0, tp := fun _ => 0 }

/-- `refreshDelayInfo` (stats.go lines 323-332). -/
def delayInfo.refreshDelayInfo (s : delayInfo) : delayInfo :=
  { s with
    delay50ms := s.delayCount 0
    delay100ms := s.delayCount 1
    delay200ms := s.delayCount 2
    delay300ms := s.delayCount 3
    delay500ms := s.delayCount 4
    delay1s := s.delayCount 5
    delay2s := s.delayCount 6
    delay3s := s.delayCount 7 }

/-- `resetDelayInfo` (stats.go lines 334-336). -/
def delayInfo.resetDelayInfo (s : delayInfo) : delayInfo :=
  { s with delayCount := fun _ => 0 }

/-- `RefreshOpStats` (stats.go lines 484-497) on window `index` (the Go
bounds check is subsumed by `Fin 5`). The QPS normalization divides by
wall-clock time (`time.Since(LastRefreshTime[index])`), outside a pure
embedding; the normalized value enters as `qpsValue`. -/
def opStats.RefreshOpStats (s : opStats) (index : Fin 5) (qpsValue : Int) : opStats :=
  let di0 := { s.delayInfo index with qps := qpsValue }
  let di1 := di0.refreshTpInfo.resetTpInfo.refreshDelayInfo.resetDelayInfo
  { s with delayInfo := Function.update s.delayInfo index di1 }

/-! ### C6: the published average -/

theorem tdiv_tdiv_comm_ofNat (n a b : Nat) :
    ((n : Int).tdiv (a : Int)).tdiv (b : Int) = ((n : Int).tdiv (b : Int)).tdiv (a : Int) := by
  rw [← Int.ofNat_tdiv, ← Int.ofNat_tdiv, ← Int.ofNat_tdiv, ← Int.ofNat_tdiv,
    Nat.div_div_eq_div_mul, Nat.div_div_eq_div_mul, Nat.mul_comm]

/-- Truncating division by two divisors can be done in either order. -/
theorem tdiv_tdiv_comm (n a b : Int) : (n.tdiv a).tdiv b = (n.tdiv b).tdiv a := by
  rcases Int.natAbs_eq n with hn | hn <;> rcases Int.natAbs_eq a with ha | ha <;>
    rcases Int.natAbs_eq b with hb | hb <;>
    rw [hn, ha, hb] <;>
    (try simp only [Int.neg_tdiv, Int.tdiv_neg, neg_neg]) <;>
    first
      | exact tdiv_tdiv_comm_ofNat _ _ _
      | exact congrArg Neg.neg (tdiv_tdiv_comm_ofNat _ _ _)

/-- C6: after a window refresh, the published `avg` equals the integer
value `nsecs / calls / 1e6` when the window saw `calls ≠ 0` (the source
computes `nsecs / 1e6 / calls`, which has the same value), and `avg = 0`
when `calls = 0`. -/
theorem refresh_avg_is_nsecs_div_calls_div_1e6 :
    ∀ s : delayInfo, s.refreshTpInfo.avg
      = if s.calls = 0 then 0 else godiv (godiv s.nsecs s.calls) 1000000 := by
  intro s
  unfold delayInfo.refreshTpInfo delayInfo.refresh4TpInfo
  try dsimp only
  rw [apply_ite delayInfo.avg]
  try dsimp only
  by_cases h : s.calls = 0
  · simp [h]
  · simp [h]
    exact tdiv_tdiv_comm s.nsecs 1000000 s.calls

/-! ### Bounds on the percentile walk -/

theorem walkBuckets_fst_cases (tp : Nat → Int) (target : Int) :
    ∀ (idxs : List Nat) (count : Int) (cur : Nat),
      (walkBuckets tp target idxs count cur).1 = cur
      ∨ (walkBuckets tp target idxs count cur).1 ∈ idxs := by
  intro idxs
  induction idxs with
  | nil => intro count cur; left; rfl
  | cons j rest ih =>
    intro count cur
    simp only [walkBuckets]
    split
    · right; exact List.mem_cons_self j rest
    · rcases ih (count + tp j) j with h | h
      · right; rw [h]; exact List.mem_cons_self j rest
      · right; exact List.mem_cons_of_mem j h

theorem walkResume_fst_bounds (tp : Nat → Int) (target count : Int) (i : Nat) (hi : i ≤ 69) :
    i ≤ (walkResume tp target count i).1 ∧ (walkResume tp target count i).1 ≤ 69 := by
  unfold walkResume
  split
  · exact ⟨Nat.le_refl i, hi⟩
  · rename_i hcond
    have hne : i ≠ 69 := fun h => hcond (Or.inr h)
    rcases walkBuckets_fst_cases tp target (List.range' (i + 1) (69 - i)) count i with h | h
    · rw [h]; exact ⟨Nat.le_refl i, hi⟩
    · rw [List.mem_range'_1] at h
      omega

theorem walkBuckets_range70_le (tp : Nat → Int) (target : Int) (count : Int) :
    (walkBuckets tp target (List.range 70) count 0).1 ≤ 69 := by
  rcases walkBuckets_fst_cases tp target (List.range 70) count 0 with h | h
  · omega
  · rw [List.mem_range] at h
    omega

theorem tpdelay_pos (i : Nat) : 0 < tpdelay i := by
  unfold tpdelay TPFirstGrade TPFirstGradeSize TPSecondGrade TPSecondGradeSize TPThirdGrade
  split_ifs <;> omega

theorem tpdelay_mono {i j : Nat} (h : i ≤ j) : tpdelay i ≤ tpdelay j := by
  unfold tpdelay TPFirstGrade TPFirstGradeSize TPSecondGrade TPSecondGradeSize TPThirdGrade
  have hij : (i : Int) ≤ (j : Int) := by exact_mod_cast h
  split_ifs <;> omega

theorem refresh4TpInfoCore_indices (calls : Int) (tp : Nat → Int) (t1 t2 t3 t4 : Int)
    (h : calls ≠ 0) :
    ∃ i1 i2 i3 i4 : Nat, i1 ≤ i2 ∧ i2 ≤ i3 ∧ i3 ≤ i4 ∧ i4 < 70
      ∧ refresh4TpInfoCore calls tp t1 t2 t3 t4
          = (tpdelay i1, tpdelay i2, tpdelay i3, tpdelay i4) := by
  unfold refresh4TpInfoCore
  rw [if_neg h]
  dsimp only
  set w1 := walkBuckets tp t1 (List.range 70) 0 0 with hw1
  set w2 := walkResume tp t2 w1.2 w1.1 with hw2
  set w3 := walkResume tp t3 w2.2 w2.1 with hw3
  set w4 := walkResume tp t4 w3.2 w3.1 with hw4
  have h1 : w1.1 ≤ 69 := by rw [hw1]; exact walkBuckets_range70_le tp t1 0
  have h2 : w1.1 ≤ w2.1 ∧ w2.1 ≤ 69 := by
    rw [hw2]; exact walkResume_fst_bounds tp t2 w1.2 w1.1 h1
  have h3 : w2.1 ≤ w3.1 ∧ w3.1 ≤ 69 := by
    rw [hw3]; exact walkResume_fst_bounds tp t3 w2.2 w2.1 h2.2
  have h4 : w3.1 ≤ w4.1 ∧ w4.1 ≤ 69 := by
    rw [hw4]; exact walkResume_fst_bounds tp t4 w3.2 w3.1 h3.2
  refine ⟨w1.1, w2.1, w3.1, w4.1, h2.1, h3.1, h4.1, by omega, ?_⟩
  rw [if_pos ⟨h2.1, h3.1, h4.1, by omega⟩]

/-! ### C2 and C10: published percentiles -/

theorem refresh4TpInfoCore_chain (calls : Int) (tp : Nat → Int) (t1 t2 t3 t4 : Int) :
    (refresh4TpInfoCore calls tp t1 t2 t3 t4).1 ≤ (refresh4TpInfoCore calls tp t1 t2 t3 t4).2.1
    ∧ (refresh4TpInfoCore calls tp t1 t2 t3 t4).2.1
        ≤ (refresh4TpInfoCore calls tp t1 t2 t3 t4).2.2.1
    ∧ (refresh4TpInfoCore calls tp t1 t2 t3 t4).2.2.1
        ≤ (refresh4TpInfoCore calls tp t1 t2 t3 t4).2.2.2 := by
  by_cases h : calls = 0
  · unfold refresh4TpInfoCore
    rw [if_pos h]
    exact ⟨le_refl 0, le_refl 0, le_refl 0⟩
  · obtain ⟨i1, i2, i3, i4, h12, h23, h34, -, heq⟩ :=
      refresh4TpInfoCore_indices calls tp t1 t2 t3 t4 h
    rw [heq]
    exact ⟨tpdelay_mono h12, tpdelay_mono h23, tpdelay_mono h34⟩

theorem refresh4TpInfo_published (x : delayInfo) :
    x.refresh4TpInfo.tp90 = (refresh4TpInfoCore x.calls x.tp (tpnum x.calls 9 10)
        (tpnum x.calls 99 100) (tpnum x.calls 999 1000) (tpnum x.calls 9999 10000)).1
    ∧ x.refresh4TpInfo.tp99 = (refresh4TpInfoCore x.calls x.tp (tpnum x.calls 9 10)
        (tpnum x.calls 99 100) (tpnum x.calls 999 1000) (tpnum x.calls 9999 10000)).2.1
    ∧ x.refresh4TpInfo.tp999 = (refresh4TpInfoCore x.calls x.tp (tpnum x.calls 9 10)
        (tpnum x.calls 99 100) (tpnum x.calls 999 1000) (tpnum x.calls 9999 10000)).2.2.1
    ∧ x.refresh4TpInfo.tp9999 = (refresh4TpInfoCore x.calls x.tp (tpnum x.calls 9 10)
        (tpnum x.calls 99 100) (tpnum x.calls 999 1000) (tpnum x.calls 9999 10000)).2.2.2 :=
  ⟨rfl, rfl, rfl, rfl⟩

theorem refreshTpInfo_published (x : delayInfo) :
    x.refreshTpInfo.tp90 = x.refresh4TpInfo.tp90
    ∧ x.refreshTpInfo.tp99 = x.refresh4TpInfo.tp99
    ∧ x.refreshTpInfo.tp999 = x.refresh4TpInfo.tp999
    ∧ x.refreshTpInfo.tp9999 = x.refresh4TpInfo.tp9999
    ∧ x.refreshTpInfo.tp100 = godiv x.nsecsmax 1000000 := by
  unfold delayInfo.refreshTpInfo
  dsimp only
  refine ⟨?_, ?_, ?_, ?_, ?_⟩ <;> (split <;> rfl)

theorem RefreshOpStats_window (s : opStats) (j : Fin 5) (q : Int) :
    (s.RefreshOpStats j q).delayInfo j
      = (({ s.delayInfo j with qps := q }
          : delayInfo).refreshTpInfo.resetTpInfo.refreshDelayInfo.resetDelayInfo) := by
  unfold opStats.RefreshOpStats
  dsimp only
  exact Function.update_same j _ _

/-- C2 (amended): after one `RefreshOpStats` refresh of a window, the
published rank percentiles always satisfy `tp90 ≤ tp99 ≤ tp999 ≤ tp9999`
(in particular whenever none of them is -1); the further bound
`tp9999 ≤ tp100` asserted by the claim does not hold (see the
counterexample). -/
theorem refresh_rank_percentiles_monotone (s : opStats) (j : Fin 5) (q : Int) :
    ((s.RefreshOpStats j q).delayInfo j).tp90 ≤ ((s.RefreshOpStats j q).delayInfo j).tp99
    ∧ ((s.RefreshOpStats j q).delayInfo j).tp99 ≤ ((s.RefreshOpStats j q).delayInfo j).tp999
    ∧ ((s.RefreshOpStats j q).delayInfo j).tp999
        ≤ ((s.RefreshOpStats j q).delayInfo j).tp9999 := by
  rw [RefreshOpStats_window s j q]
  dsimp only [delayInfo.resetDelayInfo, delayInfo.refreshDelayInfo, delayInfo.resetTpInfo]
  obtain ⟨h90, h99, h999, h9999, -⟩ := refreshTpInfo_published { s.delayInfo j with qps := q }
  rw [h90, h99, h999, h9999]
  obtain ⟨e1, e2, e3, e4⟩ := refresh4TpInfo_published { s.delayInfo j with qps := q }
  rw [e1, e2, e3, e4]
  exact refresh4TpInfoCore_chain _ _ _ _ _ _

/-- The window published by refreshing a fresh op that recorded exactly one
1 ms event: the concrete state refuting the `tp9999 ≤ tp100` part of the
claimed chain. -/
def sampleRefreshedWindow : delayInfo :=
  (((newOpStats "GET").incrOpStats 1000000 RespType.TypeReply).RefreshOpStats 0 1).delayInfo 0

/-- C2 counterexample: one 1 ms event followed by a refresh publishes
`tp90 = tp99 = tp999 = tp9999 = 5` (the upper edge of bucket 0) but
`tp100 = 0` (the 1 ms maximum is below the 5 ms slack of the `nsecsmax`
update, so `nsecsmax` stayed 0), so `tp9999 ≤ tp100` fails while none of
the five fields is -1. -/
theorem refresh_percentile_chain_counterexample :
    sampleRefreshedWindow.tp90 = 5 ∧ sampleRefreshedWindow.tp99 = 5
    ∧ sampleRefreshedWindow.tp999 = 5 ∧ sampleRefreshedWindow.tp9999 = 5
    ∧ sampleRefreshedWindow.tp100 = 0
    ∧ ¬(sampleRefreshedWindow.tp9999 ≤ sampleRefreshedWindow.tp100) := by decide

/-- C10: the percentile walk always stops at monotone indices below 70, so
the fallback branch publishing -1 is unreachable: for any histogram, call
count and rank targets with `calls ≠ 0` the output of `refresh4TpInfo` is a
quadruple of `tpdelay` entries, never -1. -/
theorem refresh_fallback_unreachable :
    (∀ (calls : Int) (tp : Nat → Int) (t1 t2 t3 t4 : Int), calls ≠ 0 →
      ∃ i1 i2 i3 i4 : Nat, i1 ≤ i2 ∧ i2 ≤ i3 ∧ i3 ≤ i4 ∧ i4 < 70
        ∧ refresh4TpInfoCore calls tp t1 t2 t3 t4
            = (tpdelay i1, tpdelay i2, tpdelay i3, tpdelay i4))
    ∧ ∀ x : delayInfo, x.calls ≠ 0 →
        x.refresh4TpInfo.tp90 ≠ -1 ∧ x.refresh4TpInfo.tp99 ≠ -1
        ∧ x.refresh4TpInfo.tp999 ≠ -1 ∧ x.refresh4TpInfo.tp9999 ≠ -1 := by
  refine ⟨refresh4TpInfoCore_indices, fun x hx => ?_⟩
  obtain ⟨e1, e2, e3, e4⟩ := refresh4TpInfo_published x
  obtain ⟨i1, i2, i3, i4, -, -, -, -, heq⟩ :=
    refresh4TpInfoCore_indices x.calls x.tp (tpnum x.calls 9 10) (tpnum x.calls 99 100)
      (tpnum x.calls 999 1000) (tpnum x.calls 9999 10000) hx
  rw [e1, e2, e3, e4, heq]
  have p1 := tpdelay_pos i1
  have p2 := tpdelay_pos i2
  have p3 := tpdelay_pos i3
  have p4 := tpdelay_pos i4
  refine ⟨?_, ?_, ?_, ?_⟩ <;> dsimp only <;> omega

/-- A window with one recorded call, used to instantiate the fallback
theorem at a concrete input. -/
def sampleWindowOneCall : delayInfo := { newDelayInfo 1 with calls := 1 }

theorem refresh_fallback_unreachable_witness :
    (∃ i1 i2 i3 i4 : Nat, i1 ≤ i2 ∧ i2 ≤ i3 ∧ i3 ≤ i4 ∧ i4 < 70
      ∧ refresh4TpInfoCore 1 (fun _ => 1) 0 0 0 0
          = (tpdelay i1, tpdelay i2, tpdelay i3, tpdelay i4))
    ∧ (sampleWindowOneCall.refresh4TpInfo.tp90 ≠ -1
      ∧ sampleWindowOneCall.refresh4TpInfo.tp99 ≠ -1
      ∧ sampleWindowOneCall.refresh4TpInfo.tp999 ≠ -1
      ∧ sampleWindowOneCall.refresh4TpInfo.tp9999 ≠ -1) :=
  ⟨refresh_fallback_unreachable.1 1 (fun _ => 1) 0 0 0 0 (by decide),
   refresh_fallback_unreachable.2 sampleWindowOneCall (by decide)⟩

/-! ### The slow-op controller (stats.go lines 144-179) -/

/-- Callback invocations on the proxy (`setMaySlowOpFlag` and
`clearMaySlowOpFlag`, defined outside stats.go). -/
inductive SlowOpAction where
  | set (opstr : String)
  | clear (opstr : String)
deriving DecidableEq

/-- The per-op body of the controller tick (stats.go lines 168-174): set
the may-slow flag when `tp100 * 1e3 > logSlowerThan` and the op is not the
"ALL" aggregate (recording `lastSetSlowTime = now`), else clear it when it
was set since the last clear and at least `clearSlowDuration` ns have
passed (recording `lastClearSlowTime = now`). Returns the updated op and
the emitted callback invocations. -/
def slowOpTickOne (now logSlowerThan clearSlowDuration : Int) (v : opStats) :
    opStats × List SlowOpAction :=
  if (v.delayInfo 0).tp100 * 1000 > logSlowerThan ∧ v.opstr ≠ "ALL" then
    ({ v with lastSetSlowTime := now }, [SlowOpAction.set v.opstr])
  else if v.lastSetSlowTime ≥ v.lastClearSlowTime
      ∧ now - v.lastSetSlowTime ≥ clearSlowDuration then
    ({ v with lastClearSlowTime := now }, [SlowOpAction.clear v.opstr])
  else (v, [])

/-- One controller tick over the registry contents (the `for ... range
cmdstats.opmap` loop at stats.go lines 167-175, reached when
`refreshPeriod > 0` and `autoSetSlowFlag` is true, with
`clearSlowDuration = refreshPeriod * ClearSlowFlagPeriodRate`). -/
def slowOpTickList (now logSlowerThan clearSlowDuration : Int) :
    List opStats → List opStats × List SlowOpAction
  | [] => ([], [])
  | v :: rest =>
    let r := slowOpTickOne now logSlowerThan clearSlowDuration v
    let rr := slowOpTickList now logSlowerThan clearSlowDuration rest
    (r.1 :: rr.1, r.2 ++ rr.2)

/-- C1 (amended): on a controller tick, for an op other than "ALL", the
`SetMaySlowOp` callback is invoked and `lastSetSlowTime` set to `now`
exactly when `window[0].tp100` (ms) multiplied by 1e3 exceeds
`logSlowerThan` (ms) — the source compares `tp100` scaled to microseconds
against the millisecond threshold, not scaled to nanoseconds as claimed. -/
theorem slow_set_iff_tp100_e3_exceeds (now lst cd : Int) (v : opStats)
    (hop : v.opstr ≠ "ALL") :
    ((slowOpTickOne now lst cd v).2 = [SlowOpAction.set v.opstr]
      ∧ (slowOpTickOne now lst cd v).1.lastSetSlowTime = now)
    ↔ (v.delayInfo 0).tp100 * 1000 > lst := by
  unfold slowOpTickOne
  by_cases h : (v.delayInfo 0).tp100 * 1000 > lst ∧ v.opstr ≠ "ALL"
  · rw [if_pos h]
    simp [h.1]
  · have hcond : ¬((v.delayInfo 0).tp100 * 1000 > lst) := fun hgt => h ⟨hgt, hop⟩
    rw [if_neg h]
    split
    · simp [hcond]
    · simp [hcond]

/-- An op "GET" whose 1-second window published `tp100 = 1` ms, observed by
the controller at `now = 100` with `logSlowerThan = 2000` ms. -/
def sampleSlowOp : opStats :=
  { newOpStats "GET" with
    delayInfo := Function.update (newOpStats "GET").delayInfo 0
      { newDelayInfo 1 with tp100 := 1 } }

theorem slow_set_iff_tp100_e3_exceeds_witness :
    ((slowOpTickOne 100 2000 999 sampleSlowOp).2 = [SlowOpAction.set sampleSlowOp.opstr]
      ∧ (slowOpTickOne 100 2000 999 sampleSlowOp).1.lastSetSlowTime = 100)
    ↔ (sampleSlowOp.delayInfo 0).tp100 * 1000 > 2000 :=
  slow_set_iff_tp100_e3_exceeds 100 2000 999 sampleSlowOp (by decide)

/-- C1 counterexample: with `tp100 = 1` ms and `logSlowerThan = 2000` ms
the claimed nanosecond comparison `tp100 * 1e6 > logSlowerThan` holds, yet
the tick invokes no callback and leaves `lastSetSlowTime` untouched,
because the source computes `tp100 * 1e3 = 1000 ≤ 2000`. -/
theorem slow_set_nanosecond_comparison_counterexample :
    (sampleSlowOp.delayInfo 0).tp100 * 1000000 > 2000
    ∧ (slowOpTickOne 100 2000 999 sampleSlowOp).2 = []
    ∧ (slowOpTickOne 100 2000 999 sampleSlowOp).1.lastSetSlowTime
        = sampleSlowOp.lastSetSlowTime := by decide

/-- C8 (amended): the controller never invokes the set callback for the
"ALL" aggregate; the clear branch carries no such guard and can fire for
"ALL" (see the counterexample). -/
theorem slow_tick_never_sets_ALL (now lst cd : Int) (ops : List opStats) :
    SlowOpAction.set "ALL" ∉ (slowOpTickList now lst cd ops).2 := by
  induction ops with
  | nil => simp [slowOpTickList]
  | cons v rest ih =>
    intro hmem
    have hmem2 : SlowOpAction.set "ALL" ∈ (slowOpTickOne now lst cd v).2
        ∨ SlowOpAction.set "ALL" ∈ (slowOpTickList now lst cd rest).2 :=
      List.mem_append.mp hmem
    rcases hmem2 with h | h
    · revert h
      unfold slowOpTickOne
      split
      · rename_i hcond
        intro h
        rw [List.mem_singleton] at h
        injection h with h2
        exact hcond.2 h2.symm
      · split
        · intro h
          rw [List.mem_singleton] at h
          simp at h
        · intro h
          simp at h
    · exact ih h

/-- C8 counterexample: a tick over a registry holding only the fresh "ALL"
op (timestamps both 0) at `now = 100` with `clearSlowDuration = 50`
invokes the clear callback for "ALL". -/
theorem slow_tick_clears_ALL_counterexample :
    (slowOpTickList 100 0 50 [newOpStats "ALL"]).2 = [SlowOpAction.clear "ALL"] := by decide

/-! ### ResetStats and the session gauges (stats.go lines 105-120, 672-688, 727-747) -/

/-- The registry and process-wide state (`cmdstats`, stats.go lines
105-120); the map becomes a list of its entries (each op carries its key in
`opstr`). -/
structure CmdStats where
  opmap : List opStats
  total : Int
  fails : Int
  redisErrors : Int
  qps : Int
  refreshPeriod : Int
  logSlowerThan : Int
  autoSetSlowFlag : Bool

/-- The session gauges (`sessions`, stats.go lines 727-730). -/
structure Sessions where
  total : Int
  alive : Int

/-- The module-level mutable state touched by `ResetStats`. -/
structure GlobalState where
  cmdstats : CmdStats
  sessions : Sessions

/-- The per-op zeroing inside the `ResetStats` loop (stats.go lines
677-680). -/
def resetOp (v : opStats) : opStats :=
  { v with totalCalls := 0, totalNsecs := 0, totalFails := 0, redisErrors := 0 }

/-- `ResetStats` (stats.go lines 672-688): zero the lifetime totals of
every registered op, zero the process-wide counters, and overwrite the
sessions total gauge with the alive gauge. -/
def ResetStats (g : GlobalState) : GlobalState :=
  { cmdstats := { g.cmdstats with
      opmap := g.cmdstats.opmap.map resetOp
      total := 0
      fails := 0
      redisErrors := 0 }
    sessions := { g.sessions with total := g.sessions.alive } }

/-- `SessionsTotal` (stats.go lines 741-743). -/
def SessionsTotal (g : GlobalState) : Int := g.sessions.total

/-- `SessionsAlive` (stats.go lines 745-747). -/
def SessionsAlive (g : GlobalState) : Int := g.sessions.alive

/-- C7: `ResetStats` keeps the registry intact entry for entry (same
length, same `opstr` keys), zeroes `totalCalls`, `totalNsecs`,
`totalFails` and `redis.errors` of every entry, zeroes the process-wide
total, fails and redis-error counters, and leaves the five windows of
every entry — counters, histogram, delay counts and derived fields —
unchanged. -/
theorem reset_zeroes_totals_and_keeps_windows (g : GlobalState) :
    (ResetStats g).cmdstats.opmap.length = g.cmdstats.opmap.length
    ∧ (∀ i : Nat, ((ResetStats g).cmdstats.opmap[i]?).map opStats.opstr
        = (g.cmdstats.opmap[i]?).map opStats.opstr)
    ∧ (∀ i : Nat, ((ResetStats g).cmdstats.opmap[i]?).map
          (fun v => (v.totalCalls, v.totalNsecs, v.totalFails, v.redisErrors))
        = (g.cmdstats.opmap[i]?).map (fun _ => ((0 : Int), (0 : Int), (0 : Int), (0 : Int))))
    ∧ (∀ i : Nat, ((ResetStats g).cmdstats.opmap[i]?).map opStats.delayInfo
        = (g.cmdstats.opmap[i]?).map opStats.delayInfo)
    ∧ (ResetStats g).cmdstats.total = 0 ∧ (ResetStats g).cmdstats.fails = 0
    ∧ (ResetStats g).cmdstats.redisErrors = 0 := by
  refine ⟨by simp [ResetStats], ?_, ?_, ?_, rfl, rfl, rfl⟩ <;>
  · intro i
    simp only [ResetStats, List.getElem?_map, Option.map_map]
    cases g.cmdstats.opmap[i]? <;> simp [resetOp]

/-- C9: `ResetStats` overwrites the sessions total gauge with the current
alive value and leaves the alive gauge unchanged, so right after the reset
`SessionsTotal` equals `SessionsAlive`. -/
theorem reset_sessions_total_becomes_alive (g : GlobalState) :
    SessionsTotal (ResetStats g) = SessionsAlive g
    ∧ SessionsAlive (ResetStats g) = SessionsAlive g
    ∧ SessionsTotal (ResetStats g) = SessionsAlive (ResetStats g) :=
  ⟨rfl, rfl, rfl⟩

end XCacheStats
